import Mathlib

/-!
Shallow embedding of the configuration-extraction core of the
vitepress d2 plugin (src/config-parser.ts and the comment-stripper /
d2-helper module).  Text is modelled as `List Char`; JavaScript numbers
as an inductive `JsNum` (NaN / signed infinity / rational value);
optional record fields as `Option`, with a second `Option` layer where a
JS object distinguishes an absent own property from a property whose
value is `undefined` (object spread copies the latter).
-/

namespace D2

/-- The NUL character, used as an out-of-range sentinel: every comparison the
scanner performs against it is with a specific non-NUL character, matching
JavaScript comparing an out-of-range read (undefined / "") with that character. -/
def nulC : Char := Char.ofNat 0

/-- The apostrophe (single-quote) character. -/
def apoC : Char := Char.ofNat 39

/-- JavaScript whitespace class (the set matched by regexp s-escape and
removed by String.trim): ASCII whitespace, NBSP, the Unicode space
separators, line/paragraph separators and the BOM. -/
def isJsWs (c : Char) : Bool :=
  let n := c.toNat
  n == 0x20 || n == 0x09 || n == 0x0a || n == 0x0d || n == 0x0b || n == 0x0c ||
  n == 0xa0 || n == 0x1680 || (decide (0x2000 ≤ n) && decide (n ≤ 0x200a)) ||
  n == 0x2028 || n == 0x2029 || n == 0x202f || n == 0x205f || n == 0x3000 ||
  n == 0xfeff

/-- Convert a Lean string literal to the `List Char` the model works on. -/
def strL (s : String) : List Char := s.data

/-- JavaScript String.trim: drop JS whitespace from both ends. -/
def trim (l : List Char) : List Char :=
  ((l.dropWhile isJsWs).reverse.dropWhile isJsWs).reverse

/-- JavaScript String.split with a single-character separator:
`split c ""` is `[""]`, a trailing separator yields a trailing empty piece. -/
def splitOnChar (sep : Char) : List Char → List (List Char)
  | [] => [[]]
  | c :: t =>
    if c = sep then [] :: splitOnChar sep t
    else
      match splitOnChar sep t with
      | h :: r => (c :: h) :: r
      | [] => [[c]]

/-- Does the first list occur at the head of the second (pattern, text)? -/
def begMatch : List Char → List Char → Bool
  | [], _ => true
  | _ :: _, [] => false
  | p :: ps, c :: cs => p == c && begMatch ps cs

/-- JavaScript String.indexOf for a substring: index of the first occurrence. -/
def idxOf (pat : List Char) : List Char → Option Nat
  | [] => if pat = [] then some 0 else none
  | c :: t => if begMatch pat (c :: t) then some 0 else Option.map (· + 1) (idxOf pat t)

/-- Index of the first occurrence of three consecutive double quotes
(the occurrence must fit entirely inside the list). -/
def tripleIdx : List Char → Option Nat
  | [] => none
  | c :: t =>
    if c = '"' ∧ t.take 2 = ['"', '"'] then some 0
    else Option.map (· + 1) (tripleIdx t)

/-- First index k of a fully-contained triple quote with k at or after j,
mirroring the scan `while (i <= code.length - 3) ...` in removeCommentsFromD2
and the lazy capture of the header regexp. -/
def findTripleIdx (code : List Char) (j : Nat) : Option Nat :=
  Option.map (· + j) (tripleIdx (code.drop j))

/-- Index of the first newline at or after i (code.length when there is none):
the loop `while (i < code.length && code[i] !== newline) i++`. -/
def nlIdx (code : List Char) (i : Nat) : Nat :=
  i + ((code.drop i).takeWhile (fun c => !(c == '\n'))).length

/-- Skip a run of spaces and tabs starting at j (used after a removed
full-line comment to also swallow the next line's indentation). -/
def skipHIdx (code : List Char) (j : Nat) : Nat :=
  j + ((code.drop j).takeWhile (fun c => c == ' ' || c == '\t')).length

/-- Skip a run of JS whitespace starting at j. -/
def skipWsIdx (code : List Char) (j : Nat) : Nat :=
  j + ((code.drop j).takeWhile isJsWs).length

/-- Length of the JS-whitespace run starting at j. -/
def wsRunLen (code : List Char) (j : Nat) : Nat :=
  ((code.drop j).takeWhile isJsWs).length

/-- The check both comment branches of removeCommentsFromD2 perform: is
position i at the start of a line, or preceded only by whitespace since the
last newline?  Faithful to the source: when i > 0, the previous character is
not a newline and no newline occurs before i at all, the answer is false. -/
def lineLeading (code : List Char) (i : Nat) : Bool :=
  if i = 0 then true
  else if code.getD (i - 1) nulC = '\n' then true
  else
    let rev := (code.take i).reverse
    let seg := rev.takeWhile (fun c => !(c == '\n'))
    if seg.length = rev.length then false
    else seg.all isJsWs

/-- One step of removeCommentsFromD2 for an opening triple quote outside any
string (lines 61-125 of the scanner): delete a terminated block comment
(plus, for a line-leading one, the following newline and indentation; for a
trailing one, the following newline), and for an unterminated one emit two
literal quote characters and resume right after the opening delimiter. -/
def blockCommentStep (code : List Char) (i : Nat) (inS inD : Bool) :
    List Char × Nat × Bool × Bool :=
  let sls := lineLeading code i
  let j := i + 3
  match findTripleIdx code j with
  | some k =>
    let i2 := k + 3
    if sls then
      if i2 < code.length ∧ code.getD i2 nulC = '\n' then
        ([], skipHIdx code (i2 + 1), inS, inD)
      else ([], i2, inS, inD)
    else
      if i2 < code.length ∧ code.getD i2 nulC = '\n' then ([], i2 + 1, inS, inD)
      else ([], i2, inS, inD)
  | none => (['"', '"'], j, inS, inD)

/-- One step of removeCommentsFromD2 for a hash outside any string
(lines 128-172): a full-line comment is deleted together with its trailing
newline and the next line's indentation; an inline comment is deleted up to
but excluding the newline, which is kept. -/
def hashCommentStep (code : List Char) (i : Nat) (inS inD : Bool) :
    List Char × Nat × Bool × Bool :=
  let k := nlIdx code i
  if lineLeading code i then
    if k < code.length then ([], skipHIdx code (k + 1), inS, inD)
    else ([], k, inS, inD)
  else
    if k < code.length then (['\n'], k + 1, inS, inD)
    else ([], k, inS, inD)

/-- One iteration of the main while loop of removeCommentsFromD2: returns the
characters appended to the result, the next index and the two quote flags. -/
def scanStep (code : List Char) (i : Nat) (inS inD : Bool) :
    List Char × Nat × Bool × Bool :=
  let c := code.getD i nulC
  if c = '"' ∧ inS = false
      ∧ ¬(2 ≤ i ∧ code.getD (i - 1) nulC = '"' ∧ code.getD (i - 2) nulC = '"')
      ∧ ¬(i + 2 < code.length ∧ code.getD (i + 1) nulC = '"'
            ∧ code.getD (i + 2) nulC = '"') then
    if 0 < i ∧ code.getD (i - 1) nulC = '\\' then ([c], i + 1, inS, inD)
    else ([c], i + 1, inS, !inD)
  else if c = apoC ∧ inD = false then
    if 0 < i ∧ code.getD (i - 1) nulC = '\\' then ([c], i + 1, inS, inD)
    else ([c], i + 1, !inS, inD)
  else if inS = false ∧ inD = false ∧ c = '"'
      ∧ code.getD (i + 1) nulC = '"' ∧ code.getD (i + 2) nulC = '"' then
    blockCommentStep code i inS inD
  else if inS = false ∧ inD = false ∧ c = '#' then
    hashCommentStep code i inS inD
  else ([c], i + 1, inS, inD)

/-- The main while loop, fuel-indexed (every step advances the index, so
`code.length + 1` units of fuel always suffice). -/
def scanD2 (code : List Char) : Nat → Nat → Bool → Bool → List Char
  | 0, _, _, _ => []
  | fuel + 1, i, inS, inD =>
    if i < code.length then
      let r := scanStep code i inS inD
      r.1 ++ scanD2 code fuel r.2.1 r.2.2.1 r.2.2.2
    else []

/-- Post-pass 1: the replacement of trailing whitespace at the very end of
the result with nothing. -/
def post1 (l : List Char) : List Char :=
  (l.reverse.dropWhile isJsWs).reverse

/-- Post-pass 2: global removal of space/tab runs standing immediately
before a newline. -/
def post2 : List Char → List Char
  | [] => []
  | c :: t =>
    let r := post2 t
    if (c == ' ' || c == '\t') && r.headD nulC == '\n' then r
    else c :: r

/-- Index of the last newline of a list (meaningful when one exists). -/
def lastNlIdx (l : List Char) : Nat :=
  l.length - 1 - l.reverse.findIdx (fun c => c == '\n')

/-- Post-pass 3: the global replacement of a newline, whitespace, newline
span by a single newline; the match ends at the last newline of the
whitespace run following the first newline, and scanning resumes after it. -/
def post3 : Nat → List Char → List Char
  | 0, _ => []
  | _ + 1, [] => []
  | fuel + 1, c :: t =>
    if c = '\n' then
      let run := t.takeWhile isJsWs
      if run.contains '\n' then '\n' :: post3 fuel (t.drop (lastNlIdx run + 1))
      else '\n' :: post3 fuel t
    else c :: post3 fuel t

/-- removeCommentsFromD2: the quote-aware comment stripper, scanner pass
followed by the three normalisation replacements. -/
def removeCommentsFromD2 (code : List Char) : List Char :=
  let r := post2 (post1 (scanD2 code (code.length + 1) 0 false false))
  post3 (r.length + 1) r

/-- A JavaScript number as the parser observes it: NaN, a signed infinity,
or a (rational-valued) finite number. -/
inductive JsNum : Type
  | nan : JsNum
  | inf : Bool → JsNum
  | val : ℚ → JsNum
deriving DecidableEq, Repr

/-- Numeric value of a list of decimal digits. -/
def digitsVal (l : List Char) : Nat :=
  l.foldl (fun a c => a * 10 + (c.toNat - 48)) 0

/-- JavaScript parseInt(s, 10): skip leading whitespace, optional sign,
longest leading run of decimal digits; NaN when that run is empty. -/
def jsParseInt (s : List Char) : JsNum :=
  let t := s.dropWhile isJsWs
  let neg : Bool := t.headD nulC == '-'
  let t2 := if t.headD nulC == '-' || t.headD nulC == '+' then t.drop 1 else t
  let ds := t2.takeWhile (fun c => c.isDigit)
  if ds = [] then JsNum.nan
  else if neg then JsNum.val (-(digitsVal ds : ℚ)) else JsNum.val (digitsVal ds)

/-- Value of a list of hexadecimal digits. -/
def hexVal (l : List Char) : Nat :=
  l.foldl (fun a c =>
    a * 16 + (if c.isDigit then c.toNat - 48 else (c.toLower.toNat - 87))) 0

/-- Is c a hexadecimal digit? -/
def isHexDigit (c : Char) : Bool :=
  c.isDigit || (decide ('a' ≤ c.toLower) && decide (c.toLower ≤ 'f'))

/-- Decimal literal digits [. digits] [e [sign] digits], consuming the whole
list; returns none when the shape is not a full decimal literal. -/
def parseDecFull (l : List Char) : Option ℚ :=
  let intD := l.takeWhile (fun c => c.isDigit)
  let r1 := l.drop intD.length
  let fracD := if r1.headD nulC == '.' then (r1.drop 1).takeWhile (fun c => c.isDigit) else []
  let r2 := if r1.headD nulC == '.' then r1.drop (1 + fracD.length) else r1
  if intD = [] ∧ fracD = [] then none
  else
    let mant : ℚ := (digitsVal intD : ℚ) + (digitsVal fracD : ℚ) / (10 : ℚ) ^ fracD.length
    match r2 with
    | [] => some mant
    | e :: r3 =>
      if e == 'e' || e == 'E' then
        let eneg : Bool := r3.headD nulC == '-'
        let r4 := if r3.headD nulC == '-' || r3.headD nulC == '+' then r3.drop 1 else r3
        let expD := r4.takeWhile (fun c => c.isDigit)
        if expD = [] ∨ r4.drop expD.length ≠ [] then none
        else
          let ex : ℤ := if eneg then -(digitsVal expD : ℤ) else (digitsVal expD : ℤ)
          some (mant * (10 : ℚ) ^ ex)
      else none

/-- JavaScript Number(s) for a string argument: trim, empty gives 0,
non-decimal 0x / 0o / 0b literals, otherwise an optional sign followed by
Infinity or by a full decimal literal; anything else is NaN. -/
def jsNumber (s : List Char) : JsNum :=
  let t := trim s
  if t = [] then JsNum.val 0
  else if begMatch (strL "0x") t ∨ begMatch (strL "0X") t then
    let ds := t.drop 2
    if ds ≠ [] ∧ ds.all isHexDigit then JsNum.val (hexVal ds) else JsNum.nan
  else if begMatch (strL "0o") t ∨ begMatch (strL "0O") t then
    let ds := t.drop 2
    if ds ≠ [] ∧ ds.all (fun c => decide ('0' ≤ c) && decide (c ≤ '7')) then
      JsNum.val (ds.foldl (fun a c => a * 8 + (c.toNat - 48)) 0 : Nat)
    else JsNum.nan
  else if begMatch (strL "0b") t ∨ begMatch (strL "0B") t then
    let ds := t.drop 2
    if ds ≠ [] ∧ ds.all (fun c => c == '0' || c == '1') then
      JsNum.val (ds.foldl (fun a c => a * 2 + (c.toNat - 48)) 0 : Nat)
    else JsNum.nan
  else
    let neg : Bool := t.headD nulC == '-'
    let t2 := if t.headD nulC == '-' || t.headD nulC == '+' then t.drop 1 else t
    if t2 = strL "Infinity" then JsNum.inf neg
    else
      match parseDecFull t2 with
      | some q => JsNum.val (if neg then -q else q)
      | none => JsNum.nan

/-- JavaScript parseFloat(s): skip leading whitespace, optional sign, then
the longest valid decimal-literal (or Infinity) leading run; trailing
garbage is ignored; NaN when no digits at all. -/
def jsParseFloat (s : List Char) : JsNum :=
  let t := s.dropWhile isJsWs
  let neg : Bool := t.headD nulC == '-'
  let t2 := if t.headD nulC == '-' || t.headD nulC == '+' then t.drop 1 else t
  if begMatch (strL "Infinity") t2 then JsNum.inf neg
  else
    let intD := t2.takeWhile (fun c => c.isDigit)
    let r1 := t2.drop intD.length
    let fracD := if r1.headD nulC == '.' then (r1.drop 1).takeWhile (fun c => c.isDigit) else []
    let r2 := if r1.headD nulC == '.' then r1.drop (1 + fracD.length) else r1
    if intD = [] ∧ fracD = [] then JsNum.nan
    else
      let mant : ℚ := (digitsVal intD : ℚ) + (digitsVal fracD : ℚ) / (10 : ℚ) ^ fracD.length
      let ex : ℤ :=
        match r2 with
        | e :: r3 =>
          if e == 'e' || e == 'E' then
            let eneg : Bool := r3.headD nulC == '-'
            let r4 := if r3.headD nulC == '-' || r3.headD nulC == '+' then r3.drop 1 else r3
            let expD := r4.takeWhile (fun c => c.isDigit)
            if expD = [] then 0
            else if eneg then -(digitsVal expD : ℤ) else (digitsVal expD : ℤ)
          else 0
        | [] => 0
      JsNum.val ((if neg then -mant else mant) * (10 : ℚ) ^ ex)

/-- The Layout string enum of config.ts. -/
inductive Layout : Type
  | dagre | elk | tala
deriving DecidableEq, Repr

/-- The FileType string enum of config.ts. -/
inductive FileType : Type
  | svg | base64svg | png | gif
deriving DecidableEq, Repr

/-- Uppercase the ASCII letters of a list (String.toUpperCase as the enum
keys exercise it). -/
def upperL (l : List Char) : List Char := l.map Char.toUpper

/-- Key lookup in the compiled Layout enum object: only the three forward
keys exist; any other key reads undefined. -/
def layoutUp (key : List Char) : Option Layout :=
  if key = strL "DAGRE" then some Layout.dagre
  else if key = strL "ELK" then some Layout.elk
  else if key = strL "TALA" then some Layout.tala
  else none

/-- Key lookup in the compiled FileType enum object. -/
def fileTypeUp (key : List Char) : Option FileType :=
  if key = strL "SVG" then some FileType.svg
  else if key = strL "BASE64_SVG" then some FileType.base64svg
  else if key = strL "PNG" then some FileType.png
  else if key = strL "GIF" then some FileType.gif
  else none

/-- The Config record of config.ts.  Outer Option: the object owns the
property; inner Option: the owned value is undefined (enum lookup miss)
versus a real value.  Object spread copies an owned undefined. -/
structure Config : Type where
  onlyConvertMarkedImage : Option (Option Bool) := none
  forceAppendix : Option (Option Bool) := none
  layout : Option (Option Layout) := none
  theme : Option (Option JsNum) := none
  darkTheme : Option (Option JsNum) := none
  pad : Option (Option JsNum) := none
  animateInterval : Option (Option JsNum) := none
  timeout : Option (Option JsNum) := none
  sketch : Option (Option Bool) := none
  center : Option (Option Bool) := none
  scale : Option (Option JsNum) := none
  target : Option (Option (List Char)) := none
  stdoutFormat : Option (Option FileType) := none
  directory : Option (Option (List Char)) := none
deriving DecidableEq, Repr

/-- The empty configuration object. -/
def emptyConfig : Config := {}

/-- The D2Config record parsed from an embedded d2-config block.  Every
assignment to it stores a defined value, so one Option layer suffices. -/
structure D2Config : Type where
  layoutEngine : Option (List Char) := none
  themeID : Option JsNum := none
  darkThemeID : Option JsNum := none
  sketch : Option Bool := none
  center : Option Bool := none
  pad : Option JsNum := none
deriving DecidableEq, Repr

/-- Loop of findBlockBounds in the d2 helper: iterate from index i with an
integer brace counter and an optional recorded body start; stop with the
body span when the counter returns to zero after a recorded start. -/
def fbbGo (code : List Char) : Nat → Nat → Int → Option Nat → Option (Nat × Nat)
  | 0, _, _, _ => none
  | fuel + 1, i, bc, bs =>
    if i < code.length then
      let c := code.getD i nulC
      if c = '{' then
        let bs2 := if bc = 0 then some (i + 1) else bs
        fbbGo code fuel (i + 1) (bc + 1) bs2
      else if c = '}' then
        let bc2 := bc - 1
        if bc2 = 0 ∧ bs ≠ none then
          match bs with
          | some b => some (b, i)
          | none => none
        else fbbGo code fuel (i + 1) bc2 bs
      else fbbGo code fuel (i + 1) bc bs
    else none

/-- findBlockBounds: the half-open body span strictly between the first
brace at or after startIndex and its depth-balanced closing brace; none when
either bound is missing (the caller checks both are set). -/
def findBlockBounds (code : List Char) (startIndex : Nat) : Option (Nat × Nat) :=
  fbbGo code (code.length + 1) startIndex 0 none

/-- getD2ConfigContent: locate vars:, take its brace body, locate
d2-config: inside it, take that brace body; empty on any failure. -/
def getD2ConfigContent (code : List Char) : List Char :=
  match idxOf (strL "vars:") code with
  | none => []
  | some varsStart =>
    match findBlockBounds code varsStart with
    | none => []
    | some (bs, be) =>
      let varsContent := (code.drop bs).take (be - bs)
      match idxOf (strL "d2-config:") varsContent with
      | none => []
      | some d2Start =>
        match findBlockBounds varsContent d2Start with
        | none => []
        | some (cs, ce) => (varsContent.drop cs).take (ce - cs)

/-- Case-insensitive match of a lowercase keyword at the head of a text. -/
def matchCI : List Char → List Char → Bool
  | [], _ => true
  | _ :: _, [] => false
  | p :: ps, c :: cs => p == c.toLower && matchCI ps cs

/-- A regexp word character. -/
def isWordChar (c : Char) : Bool := c.isAlpha || c.isDigit || c == '_'

/-- After a composition keyword ending at j: optional whitespace, a colon,
optional whitespace, an opening brace. -/
def compTailOk (code : List Char) (j : Nat) : Bool :=
  let j2 := skipWsIdx code j
  if code.getD j2 nulC = ':' then
    let j3 := skipWsIdx code (j2 + 1)
    code.getD j3 nulC == '{'
  else false

/-- One candidate position of the hasComposition regexp: a word boundary,
one of the three keywords case-insensitively, then colon and brace. -/
def hasCompAt (code : List Char) (i : Nat) : Bool :=
  (i == 0 || !(isWordChar (code.getD (i - 1) nulC))) &&
  ((matchCI (strL "layers") (code.drop i) && compTailOk code (i + 6)) ||
   (matchCI (strL "scenarios") (code.drop i) && compTailOk code (i + 9)) ||
   (matchCI (strL "steps") (code.drop i) && compTailOk code (i + 5)))

/-- hasComposition: does the composition regexp match anywhere in the code? -/
def hasComposition (code : List Char) : Bool :=
  (List.range code.length).any (fun i => hasCompAt code i)

/-- stripQuotes of config-parser.ts: remove one pair of matching single or
double quotes surrounding the whole value. -/
def stripQuotes (s : List Char) : List Char :=
  if s.length < 2 then s
  else if (s.headD nulC = '"' ∧ s.getLastD nulC = '"')
      ∨ (s.headD nulC = apoC ∧ s.getLastD nulC = apoC) then
    (s.drop 1).take (s.length - 2)
  else s

/-- One line of the embedded d2-config block (the loop body of
parseAndConvertD2Config): skip empty lines and lines not splitting into
exactly two colon-separated parts; otherwise dispatch on the trimmed key. -/
def parseD2Line (d2 : D2Config) (line : List Char) : D2Config :=
  if line = [] then d2
  else
    let parts := splitOnChar ':' line
    if parts.length ≠ 2 then d2
    else
      let key := trim (parts.getD 0 [])
      let v := trim (parts.getD 1 [])
      if key = strL "layout-engine" then { d2 with layoutEngine := some (stripQuotes v) }
      else if key = strL "theme-id" then { d2 with themeID := some (jsParseInt v) }
      else if key = strL "dark-theme-id" then { d2 with darkThemeID := some (jsParseInt v) }
      else if key = strL "sketch" then { d2 with sketch := some (decide (v = strL "true")) }
      else if key = strL "center" then { d2 with center := some (decide (v = strL "true")) }
      else if key = strL "pad" then { d2 with pad := some (jsParseInt v) }
      else d2

/-- The line loop of parseAndConvertD2Config over the newline-split block. -/
def parseD2ConfigLines (content : List Char) : D2Config :=
  (splitOnChar '\n' content).foldl parseD2Line {}

/-- parseAndConvertD2Config: extract the embedded block from the (cleaned)
code and parse its lines; empty extraction gives the empty record. -/
def parseAndConvertD2Config (code : List Char) : D2Config :=
  let content := getD2ConfigContent code
  if content = [] then {} else parseD2ConfigLines content

/-- convertD2ConfigToConfig: translate the embedded-block record into the
Config namespace.  The layout assignment is guarded by a successful (truthy)
enum lookup; numeric fields are copied as numbers; nothing here ever stores
an owned undefined, and the animateInterval, timeout, stdoutFormat, target,
scale, directory, forceAppendix and onlyConvertMarkedImage fields are never
assigned. -/
def convertD2ConfigToConfig (d2 : D2Config) : Config :=
  { emptyConfig with
    layout :=
      match d2.layoutEngine with
      | some le =>
        match layoutUp (upperL le) with
        | some l => some (some l)
        | none => none
      | none => none
    theme := match d2.themeID with | some n => some (some n) | none => none
    darkTheme := match d2.darkThemeID with | some n => some (some n) | none => none
    sketch := match d2.sketch with | some b => some (some b) | none => none
    center := match d2.center with | some b => some (some b) | none => none
    pad := match d2.pad with | some n => some (some n) | none => none }

/-- The header regexp of parseAndConvertConfig: anchored three double quotes
plus newline, lazy capture up to the first subsequent triple quote, then a
greedy whitespace run (the optional trailing newline of the pattern is
absorbed by it).  Returns the capture and the match length. -/
def headerMatch (code : List Char) : Option (List Char × Nat) :=
  if code.take 4 = strL "\"\"\"\n" then
    match findTripleIdx code 4 with
    | some k => some ((code.drop 4).take (k - 4), k + 3 + wsRunLen code (k + 3))
    | none => none
  else none

/-- An ordered JS string-keyed record: insertion keeps first-occurrence
position, repeated assignment overwrites the value. -/
def insertUpdate (uc : List (List Char × List Char)) (k v : List Char) :
    List (List Char × List Char) :=
  match uc with
  | [] => [(k, v)]
  | (k0, v0) :: t => if k0 = k then (k0, v) :: t else (k0, v0) :: insertUpdate t k v

/-- JavaScript split on a whitespace-run regexp: pieces between maximal
whitespace runs, with empty pieces at a leading or trailing run. -/
def jsSplitWsGo (fuel : Nat) (l : List Char) : List (List Char) :=
  match fuel with
  | 0 => []
  | fuel + 1 =>
    let tok := l.takeWhile (fun c => !(isJsWs c))
    let rest := l.dropWhile (fun c => !(isJsWs c))
    match rest with
    | [] => [tok]
    | _ => tok :: jsSplitWsGo fuel (rest.dropWhile isJsWs)

/-- JavaScript String.split on a whitespace-run regexp. -/
def jsSplitWs (l : List Char) : List (List Char) := jsSplitWsGo (l.length + 1) l

/-- One line of the directive header (the first loop of
parseAndConvertConfig): ignore blank lines and lines whose trimmed form does
not start with two dashes; split the raw line on equals signs when one is
present, otherwise on whitespace runs with the implicit "true" for a
missing or empty value. -/
def parseHeaderLine (uc : List (List Char × List Char)) (line : List Char) :
    List (List Char × List Char) :=
  let trimmedLine := trim line
  if trimmedLine = [] then uc
  else if !(begMatch (strL "--") trimmedLine) then uc
  else if line.contains '=' then
    let parts := (splitOnChar '=' line).map trim
    insertUpdate uc (parts.getD 0 []) (parts.getD 1 [])
  else
    let parts := (jsSplitWs line).map trim
    let value := parts.getD 1 []
    insertUpdate uc (parts.getD 0 []) (if value = [] then strL "true" else value)

/-- The directive switch of parseAndConvertConfig, for one stored
key/value: note that the layout and stdout-format cases store the raw enum
lookup result, so a failed lookup stores an owned undefined, while the
theme and dark-theme cases are guarded by a numeric check. -/
def applyDirective (c : Config) (kv : List Char × List Char) : Config :=
  let k := kv.1
  let v := kv.2
  if k = strL "--force-appendix" then
    { c with forceAppendix := some (some (decide (v = strL "true"))) }
  else if k = strL "--layout" then { c with layout := some (layoutUp (upperL v)) }
  else if k = strL "--theme" then
    if jsNumber v ≠ JsNum.nan then { c with theme := some (some (jsNumber v)) } else c
  else if k = strL "--dark-theme" then
    if jsNumber v ≠ JsNum.nan then { c with darkTheme := some (some (jsNumber v)) } else c
  else if k = strL "--pad" then { c with pad := some (some (jsParseInt v)) }
  else if k = strL "--animate-interval" then
    { c with animateInterval := some (some (jsParseInt v)) }
  else if k = strL "--timeout" then { c with timeout := some (some (jsParseInt v)) }
  else if k = strL "--sketch" then { c with sketch := some (some (decide (v = strL "true"))) }
  else if k = strL "--center" then { c with center := some (some (decide (v = strL "true"))) }
  else if k = strL "--scale" then { c with scale := some (some (jsParseFloat v)) }
  else if k = strL "--target" then { c with target := some (some v) }
  else if k = strL "--stdout-format" then
    { c with stdoutFormat := some (fileTypeUp (upperL v)) }
  else if k = strL "--directory" then { c with directory := some (some v) }
  else c

/-- The conversion loop of parseAndConvertConfig over the stored entries. -/
def convertUserConfig (uc : List (List Char × List Char)) : Config :=
  uc.foldl applyDirective emptyConfig

/-- parseAndConvertConfig: match the header regexp (a missing match or an
empty capture returns the block unchanged with an empty configuration),
parse the directive lines of the trimmed capture, and return the converted
configuration together with the code with the matched span removed and
trimmed. -/
def parseAndConvertConfig (code : List Char) : Config × List Char :=
  match headerMatch code with
  | none => (emptyConfig, code)
  | some (capture, mlen) =>
    if capture = [] then (emptyConfig, code)
    else
      let configLines := splitOnChar '\n' (trim capture)
      let uc := configLines.foldl parseHeaderLine []
      (convertUserConfig uc, trim (code.drop mlen))

/-- Field-level override: the later object's owned property (defined or
undefined) wins, an absent property leaves the earlier value. -/
def ov {α : Type} (d o : Option α) : Option α :=
  match o with
  | some x => some x
  | none => d

/-- Object spread of two configurations, field by field. -/
def mergeConfigs (a b : Config) : Config :=
  { onlyConvertMarkedImage := ov a.onlyConvertMarkedImage b.onlyConvertMarkedImage
    forceAppendix := ov a.forceAppendix b.forceAppendix
    layout := ov a.layout b.layout
    theme := ov a.theme b.theme
    darkTheme := ov a.darkTheme b.darkTheme
    pad := ov a.pad b.pad
    animateInterval := ov a.animateInterval b.animateInterval
    timeout := ov a.timeout b.timeout
    sketch := ov a.sketch b.sketch
    center := ov a.center b.center
    scale := ov a.scale b.scale
    target := ov a.target b.target
    stdoutFormat := ov a.stdoutFormat b.stdoutFormat
    directory := ov a.directory b.directory }

/-- The loose null test (x == null) of JavaScript: true for an absent
property and for an owned undefined, false for any number including NaN. -/
def isNullish {α : Type} : Option (Option α) → Bool
  | none => true
  | some none => true
  | some (some _) => false

/-- parseConfig: directive header parse, comment strip, embedded-config
parse of the cleaned code, spread-merge of default, directive and embedded
configurations, then the derived animate-interval rule.  Faithful to the
source, the composition test runs on the header-stripped code (not the
comment-stripped copy) and the returned code is that header-stripped code. -/
def parseConfig (content : List Char) (defaultConfig : Config) : Config × List Char :=
  let pr := parseAndConvertConfig content
  let code := pr.2
  let cleanedCode := removeCommentsFromD2 code
  let d2FileConvertedConfig := convertD2ConfigToConfig (parseAndConvertD2Config cleanedCode)
  let mergedConfig := mergeConfigs (mergeConfigs defaultConfig pr.1) d2FileConvertedConfig
  let finalConfig :=
    if isNullish mergedConfig.animateInterval && hasComposition code then
      { mergedConfig with animateInterval := some (some (JsNum.val 1200)) }
    else mergedConfig
  (finalConfig, code)

/-! Helper lemmas shared by the claim theorems. -/

/-- Reading a value different from the default proves the index in range. -/
theorem getD_ne_imp_lt {l : List Char} {n : Nat} {d x : Char}
    (h : l.getD n d = x) (hx : x ≠ d) : n < l.length := by
  by_contra hn
  rw [List.getD_eq_default _ _ (by omega)] at h
  exact hx h.symm

/-- A found triple quote leaves at least three characters after its index. -/
theorem tripleIdx_some_le {l : List Char} {m : Nat} (h : tripleIdx l = some m) :
    m + 3 ≤ l.length := by
  induction l generalizing m with
  | nil => simp [tripleIdx] at h
  | cons c t ih =>
    rw [tripleIdx] at h
    by_cases hc : c = '"' ∧ t.take 2 = ['"', '"']
    · rw [if_pos hc] at h
      cases h
      have h2 : 2 ≤ t.length := by
        rcases t with _ | ⟨a, _ | ⟨b, t2⟩⟩ <;> simp_all [List.take]
      simpa using h2
    · rw [if_neg hc] at h
      rcases Option.map_eq_some'.mp h with ⟨m', hm', rfl⟩
      have := ih hm'
      simp only [List.length_cons]
      omega

/-- splitOnChar of a separator-free list is that single piece. -/
theorem splitOnChar_of_not_mem {sep : Char} :
    ∀ l : List Char, sep ∉ l → splitOnChar sep l = [l] := by
  intro l
  induction l with
  | nil => intro _; rfl
  | cons c t ih =>
    intro h
    rw [splitOnChar, if_neg (by simp_all [eq_comm]), ih (by simp_all)]

/-- splitOnChar splits off a separator-free head piece at the first separator. -/
theorem splitOnChar_append_cons {sep : Char} :
    ∀ a b : List Char, sep ∉ a →
      splitOnChar sep (a ++ sep :: b) = a :: splitOnChar sep b := by
  intro a
  induction a with
  | nil => intro b _; simp [splitOnChar]
  | cons c t ih =>
    intro b h
    rw [List.cons_append, splitOnChar, if_neg (by simp_all [eq_comm]),
      ih b (by simp_all)]

/-- The embedded-block conversion never assigns stdoutFormat. -/
theorem convertD2_stdoutFormat (d2 : D2Config) :
    (convertD2ConfigToConfig d2).stdoutFormat = none := rfl

/-- The embedded-block conversion never assigns animateInterval. -/
theorem convertD2_animateInterval (d2 : D2Config) :
    (convertD2ConfigToConfig d2).animateInterval = none := rfl

/-- The embedded-block conversion never assigns timeout. -/
theorem convertD2_timeout (d2 : D2Config) :
    (convertD2ConfigToConfig d2).timeout = none := rfl

/-- The layout field of the final merge, as the spread of the three stages
(the derived animate rule does not touch it). -/
theorem parseConfig_layout (content : List Char) (d : Config) :
    (parseConfig content d).1.layout
      = ov (ov d.layout (parseAndConvertConfig content).1.layout)
          (convertD2ConfigToConfig (parseAndConvertD2Config
            (removeCommentsFromD2 (parseAndConvertConfig content).2))).layout := by
  rw [parseConfig]
  split <;> rfl

/-- The stdoutFormat field of the final merge. -/
theorem parseConfig_stdoutFormat (content : List Char) (d : Config) :
    (parseConfig content d).1.stdoutFormat
      = ov (ov d.stdoutFormat (parseAndConvertConfig content).1.stdoutFormat)
          (convertD2ConfigToConfig (parseAndConvertD2Config
            (removeCommentsFromD2 (parseAndConvertConfig content).2))).stdoutFormat := by
  rw [parseConfig]
  split <;> rfl

/-- The pad field of the final merge. -/
theorem parseConfig_pad (content : List Char) (d : Config) :
    (parseConfig content d).1.pad
      = ov (ov d.pad (parseAndConvertConfig content).1.pad)
          (convertD2ConfigToConfig (parseAndConvertD2Config
            (removeCommentsFromD2 (parseAndConvertConfig content).2))).pad := by
  rw [parseConfig]
  split <;> rfl

/-- The timeout field of the final merge. -/
theorem parseConfig_timeout (content : List Char) (d : Config) :
    (parseConfig content d).1.timeout
      = ov (ov d.timeout (parseAndConvertConfig content).1.timeout)
          (convertD2ConfigToConfig (parseAndConvertD2Config
            (removeCommentsFromD2 (parseAndConvertConfig content).2))).timeout := by
  rw [parseConfig]
  split <;> rfl

/-- The sketch field of the final merge. -/
theorem parseConfig_sketch (content : List Char) (d : Config) :
    (parseConfig content d).1.sketch
      = ov (ov d.sketch (parseAndConvertConfig content).1.sketch)
          (convertD2ConfigToConfig (parseAndConvertD2Config
            (removeCommentsFromD2 (parseAndConvertConfig content).2))).sketch := by
  rw [parseConfig]
  split <;> rfl

/-- The animateInterval field of the final configuration: the merged value,
with the derived rule applied on top of it. -/
theorem parseConfig_animate (content : List Char) (d : Config) :
    (parseConfig content d).1.animateInterval
      = (if isNullish (ov (ov d.animateInterval
              (parseAndConvertConfig content).1.animateInterval)
            (convertD2ConfigToConfig (parseAndConvertD2Config
              (removeCommentsFromD2 (parseAndConvertConfig content).2))).animateInterval)
            && hasComposition (parseAndConvertConfig content).2 then
          some (some (JsNum.val 1200))
        else
          ov (ov d.animateInterval (parseAndConvertConfig content).1.animateInterval)
            (convertD2ConfigToConfig (parseAndConvertD2Config
              (removeCommentsFromD2 (parseAndConvertConfig content).2))).animateInterval) := by
  rw [parseConfig]
  split
  case isTrue h => exact (if_pos h).symm
  case isFalse h => exact (if_neg h).symm

/-! The claim theorems. -/

/-- C1 counterexample: with a default configuration whose layout is dagre
and the directive `--layout bad` (whose uppercase lookup misses the enum),
the merged configuration's layout is an owned undefined, not the default's
value — the claim's retained-default behaviour fails on this input. -/
theorem c1_counterexample :
    (parseConfig (strL "\"\"\"\n--layout bad\n\"\"\"\nx: y")
        { emptyConfig with layout := some (some Layout.dagre) }).1.layout = some none
      ∧ (some none : Option (Option Layout))
          ≠ ({ emptyConfig with layout := some (some Layout.dagre) } : Config).layout :=
  ⟨by decide, by decide⟩

/-- C1 (amended): a directive `--layout` or `--stdout-format` whose
uppercase enum lookup misses does not leave the field unset: it stores an
owned undefined in the directive configuration, and the shallow field-level
merge lets that undefined override the default, so the merged field is
undefined rather than the default's value (for layout, provided the
embedded d2-config block does not set the field; the embedded block can
never set stdout-format). -/
theorem c1_undefined_overrides :
    (∀ v : List Char, layoutUp (upperL v) = none →
        (convertUserConfig [(strL "--layout", v)]).layout = some none)
  ∧ (∀ v : List Char, fileTypeUp (upperL v) = none →
        (convertUserConfig [(strL "--stdout-format", v)]).stdoutFormat = some none)
  ∧ (∀ (content : List Char) (d : Config),
        (parseAndConvertConfig content).1.layout = some none →
        (convertD2ConfigToConfig (parseAndConvertD2Config
          (removeCommentsFromD2 (parseAndConvertConfig content).2))).layout = none →
        (parseConfig content d).1.layout = some none)
  ∧ (∀ (content : List Char) (d : Config),
        (parseAndConvertConfig content).1.stdoutFormat = some none →
        (parseConfig content d).1.stdoutFormat = some none)
  ∧ (∀ d : Config,
        (parseConfig (strL "\"\"\"\n--layout bad\n\"\"\"\nx: y") d).1.layout = some none) := by
  refine ⟨?_, ?_, ?_, ?_, ?_⟩
  · intro v h
    simp +decide [convertUserConfig, applyDirective, h]
  · intro v h
    simp +decide [convertUserConfig, applyDirective, h]
  · intro content d h1 h2
    rw [parseConfig_layout, h1, h2]; rfl
  · intro content d h1
    rw [parseConfig_stdoutFormat, h1, convertD2_stdoutFormat]; rfl
  · intro d
    rw [parseConfig_layout,
      show (parseAndConvertConfig (strL "\"\"\"\n--layout bad\n\"\"\"\nx: y")).1.layout
        = some none from by decide,
      show (convertD2ConfigToConfig (parseAndConvertD2Config (removeCommentsFromD2
          (parseAndConvertConfig (strL "\"\"\"\n--layout bad\n\"\"\"\nx: y")).2))).layout
        = none from by decide]
    rfl

/-- C1 witness: the amended theorem applied to the value bad and to the
empty default configuration. -/
theorem c1_witness :
    (convertUserConfig [(strL "--layout", strL "bad")]).layout = some none
      ∧ (parseConfig (strL "\"\"\"\n--layout bad\n\"\"\"\nx: y") emptyConfig).1.layout
          = some none :=
  ⟨c1_undefined_overrides.1 (strL "bad") (by decide),
   c1_undefined_overrides.2.2.2.2 emptyConfig⟩

/-- C2: on the input whose only composition keyword sits inside a comment,
the source still sets animateInterval to 1200, because it runs the
composition test on the non-stripped code; the detector on the cleaned code
is false, as the claim requires. -/
theorem c2_comment_triggers_animate :
    (parseConfig (strL "# layers: \x7b\na: b") emptyConfig).1.animateInterval
        = some (some (JsNum.val 1200))
      ∧ hasComposition (removeCommentsFromD2
          (parseAndConvertConfig (strL "# layers: \x7b\na: b")).2) = false :=
  ⟨by decide, by decide⟩

/-- C3 counterexample: on a block with an inline comment and no header,
parseConfig returns the block byte-for-byte, which differs from its
comment-stripped form — so the returned code is not the cleaned code. -/
theorem c3_counterexample :
    (parseConfig (strL "a: b # c") emptyConfig).2 = strL "a: b # c"
      ∧ removeCommentsFromD2 (strL "a: b # c") = strL "a: b"
      ∧ strL "a: b # c" ≠ strL "a: b" :=
  ⟨by decide, by decide, by decide⟩

/-- C3 (amended): the code parseConfig returns is exactly the
header-stripped code of the directive parser; comment stripping is applied
only to the internal copy used for the embedded-config parse, and is never
applied to the returned code (so in particular the embedded block is left
intact in it). -/
theorem c3_code_not_stripped (content : List Char) (d : Config) :
    (parseConfig content d).2 = (parseAndConvertConfig content).2 := rfl

/-- C4 counterexample: the documented input does not map to the claimed
output with its trailing newline. -/
theorem c4_counterexample :
    removeCommentsFromD2
        (strL "\"\"\"\n# inside block comment\nfoo\n\"\"\"\na: b # trailing\n")
      ≠ strL "a: b\n" := by decide

/-- C4 (amended): the cleaned output of the documented input is exactly
the five characters a colon space b: the inline comment rule does retain
the newline, but the end-of-text normalisation then removes it, because it
is trailing whitespace. -/
theorem c4_cleaned_output :
    removeCommentsFromD2
        (strL "\"\"\"\n# inside block comment\nfoo\n\"\"\"\na: b # trailing\n")
      = strL "a: b" := by decide

/-- C5: on an unterminated block-comment opener, the scanner emits only two
literal double quotes (not the three of the opening delimiter) before
resuming after the opener — one quote character is silently dropped.  The
failing input is three double quotes followed by x. -/
theorem c5_fallback_two_quotes :
    removeCommentsFromD2 (strL "\"\"\"x") = strL "\"\"x"
      ∧ strL "\"\"x" ≠ strL "\"\"\"x" :=
  ⟨by decide, by decide⟩

/-- C7: the comment stripper is not idempotent; on four double quotes one
pass yields three quote characters and a second pass yields two. -/
theorem c7_not_idempotent :
    removeCommentsFromD2 (removeCommentsFromD2 (strL "\"\"\"\""))
      ≠ removeCommentsFromD2 (strL "\"\"\"\"") := by decide

/-- C9: a pad, animate-interval or timeout directive whose value does not
parse as an integer stores NaN in the directive configuration (an owned
defined value, neither unset nor defaulted), and NaN survives the merge
into the final configuration (for pad, provided the embedded block does
not set pad; the embedded block can never set the other two).  The final
conjunct is a concrete end-to-end run under every default configuration. -/
theorem c9_nan_propagates :
    (∀ v : List Char, jsParseInt v = JsNum.nan →
        (convertUserConfig [(strL "--pad", v)]).pad = some (some JsNum.nan)
      ∧ (convertUserConfig [(strL "--animate-interval", v)]).animateInterval
          = some (some JsNum.nan)
      ∧ (convertUserConfig [(strL "--timeout", v)]).timeout = some (some JsNum.nan))
  ∧ (∀ (content : List Char) (d : Config),
      (parseAndConvertConfig content).1.pad = some (some JsNum.nan) →
      (convertD2ConfigToConfig (parseAndConvertD2Config
        (removeCommentsFromD2 (parseAndConvertConfig content).2))).pad = none →
      (parseConfig content d).1.pad = some (some JsNum.nan))
  ∧ (∀ (content : List Char) (d : Config),
      (parseAndConvertConfig content).1.animateInterval = some (some JsNum.nan) →
      (parseConfig content d).1.animateInterval = some (some JsNum.nan))
  ∧ (∀ (content : List Char) (d : Config),
      (parseAndConvertConfig content).1.timeout = some (some JsNum.nan) →
      (parseConfig content d).1.timeout = some (some JsNum.nan))
  ∧ (∀ d : Config,
      (parseConfig (strL "\"\"\"\n--pad=zz\n\"\"\"\nx: y") d).1.pad
        = some (some JsNum.nan)) := by
  refine ⟨?_, ?_, ?_, ?_, ?_⟩
  · intro v h
    refine ⟨?_, ?_, ?_⟩ <;> simp +decide [convertUserConfig, applyDirective, h]
  · intro content d h1 h2
    rw [parseConfig_pad, h1, h2]; rfl
  · intro content d h1
    rw [parseConfig_animate, h1, convertD2_animateInterval]
    simp [ov, isNullish]
  · intro content d h1
    rw [parseConfig_timeout, h1, convertD2_timeout]; rfl
  · intro d
    rw [parseConfig_pad,
      show (parseAndConvertConfig (strL "\"\"\"\n--pad=zz\n\"\"\"\nx: y")).1.pad
        = some (some JsNum.nan) from by decide,
      show (convertD2ConfigToConfig (parseAndConvertD2Config (removeCommentsFromD2
          (parseAndConvertConfig (strL "\"\"\"\n--pad=zz\n\"\"\"\nx: y")).2))).pad
        = none from by decide]
    rfl

/-- C9 witness: the theorem applied to the value zz and to the empty
default configuration. -/
theorem c9_witness :
    (convertUserConfig [(strL "--pad", strL "zz")]).pad = some (some JsNum.nan)
      ∧ (parseConfig (strL "\"\"\"\n--pad=zz\n\"\"\"\nx: y") emptyConfig).1.pad
          = some (some JsNum.nan) :=
  ⟨(c9_nan_propagates.1 (strL "zz") (by decide)).1,
   c9_nan_propagates.2.2.2.2 emptyConfig⟩

/-- C10: an embedded d2-config sketch (or center) line whose trimmed value
is anything other than the exact literal true — a quoted true, false, or
arbitrary text — stores an explicit false in the inline record; the
conversion turns it into an owned defined false, and the merge lets that
false override whatever the default and directive stages set.  The last
conjunct runs the concrete pipeline: default sketch true, directive
`--sketch`, embedded `sketch: false`, merged sketch false. -/
theorem c10_inline_false_overrides :
    (∀ v : List Char, (':' : Char) ∉ v → ('\n' : Char) ∉ v → trim v ≠ strL "true" →
        (parseD2ConfigLines (strL "sketch: " ++ v)).sketch = some false
      ∧ (parseD2ConfigLines (strL "center: " ++ v)).center = some false)
  ∧ (∀ d2 : D2Config, d2.sketch = some false →
        (convertD2ConfigToConfig d2).sketch = some (some false))
  ∧ (∀ a b inl : Config, inl.sketch = some (some false) →
        (mergeConfigs (mergeConfigs a b) inl).sketch = some (some false))
  ∧ (∀ d : Config, d.sketch = some (some true) →
        (parseConfig (strL "\"\"\"\n--sketch\n\"\"\"\nvars: \x7b\n  d2-config: \x7b\n    sketch: false\n  \x7d\n\x7d\na -> b")
            d).1.sketch = some (some false)) := by
  refine ⟨?_, ?_, ?_, ?_⟩
  · intro v hv1 hv2 hv3
    have hv1' : (':' : Char) ∉ ' ' :: v := by
      intro hm
      rcases List.mem_cons.mp hm with h | h
      · exact absurd h (by decide)
      · exact hv1 h
    have htr : trim (' ' :: v) = trim v := by
      rw [trim, trim, List.dropWhile_cons, if_pos (by decide : isJsWs ' ' = true)]
    constructor
    · have hmem : ('\n' : Char) ∉ strL "sketch: " ++ v := by
        intro hm
        rcases List.mem_append.mp hm with h | h
        · revert h; decide
        · exact hv2 h
      have hsp : splitOnChar ':' (strL "sketch: " ++ v) = [strL "sketch", ' ' :: v] := by
        rw [show strL "sketch: " ++ v = strL "sketch" ++ ':' :: (' ' :: v) from rfl,
          splitOnChar_append_cons _ _ (by decide), splitOnChar_of_not_mem _ hv1']
      rw [parseD2ConfigLines, splitOnChar_of_not_mem _ hmem]
      simp only [List.foldl_cons, List.foldl_nil]
      rw [parseD2Line, if_neg (by simp [strL]), hsp]
      simp +decide [htr, decide_eq_false hv3]
    · have hmem : ('\n' : Char) ∉ strL "center: " ++ v := by
        intro hm
        rcases List.mem_append.mp hm with h | h
        · revert h; decide
        · exact hv2 h
      have hsp : splitOnChar ':' (strL "center: " ++ v) = [strL "center", ' ' :: v] := by
        rw [show strL "center: " ++ v = strL "center" ++ ':' :: (' ' :: v) from rfl,
          splitOnChar_append_cons _ _ (by decide), splitOnChar_of_not_mem _ hv1']
      rw [parseD2ConfigLines, splitOnChar_of_not_mem _ hmem]
      simp only [List.foldl_cons, List.foldl_nil]
      rw [parseD2Line, if_neg (by simp [strL]), hsp]
      simp +decide [htr, decide_eq_false hv3]
  · intro d2 h
    simp [convertD2ConfigToConfig, h]
  · intro a b inl h
    simp [mergeConfigs, ov, h]
  · intro d _
    rw [parseConfig_sketch,
      show (parseAndConvertConfig (strL "\"\"\"\n--sketch\n\"\"\"\nvars: \x7b\n  d2-config: \x7b\n    sketch: false\n  \x7d\n\x7d\na -> b")).1.sketch
        = some (some true) from by decide,
      show (convertD2ConfigToConfig (parseAndConvertD2Config (removeCommentsFromD2
          (parseAndConvertConfig (strL "\"\"\"\n--sketch\n\"\"\"\nvars: \x7b\n  d2-config: \x7b\n    sketch: false\n  \x7d\n\x7d\na -> b")).2))).sketch
        = some (some false) from by decide]
    rfl

/-- C10 witness: the theorem applied to the value false and to a default
configuration with sketch true. -/
theorem c10_witness :
    (parseD2ConfigLines (strL "sketch: " ++ strL "false")).sketch = some false
      ∧ (parseConfig (strL "\"\"\"\n--sketch\n\"\"\"\nvars: \x7b\n  d2-config: \x7b\n    sketch: false\n  \x7d\n\x7d\na -> b")
          { emptyConfig with sketch := some (some true) }).1.sketch = some (some false) :=
  ⟨(c10_inline_false_overrides.1 (strL "false") (by decide) (by decide) (by decide)).1,
   c10_inline_false_overrides.2.2.2 { emptyConfig with sketch := some (some true) } rfl⟩

/-- C8 counterexample: the block of an empty header (three quotes, newline,
three quotes, newline, shape) begins with the quoted-newline prefix and a
subsequent triple quote exists, yet the parser returns the block unchanged
instead of the header-removed, trimmed code shape. -/
theorem c8_counterexample :
    (strL "\"\"\"\n\"\"\"\nshape").take 4 = strL "\"\"\"\n"
      ∧ tripleIdx ((strL "\"\"\"\n\"\"\"\nshape").drop 4) = some 0
      ∧ parseAndConvertConfig (strL "\"\"\"\n\"\"\"\nshape")
          = (emptyConfig, strL "\"\"\"\n\"\"\"\nshape")
      ∧ trim ((strL "\"\"\"\n\"\"\"\nshape").drop 8) = strL "shape"
      ∧ strL "\"\"\"\n\"\"\"\nshape" ≠ strL "shape" :=
  ⟨by decide, by decide, by decide, by decide, by decide⟩

/-- C8 (amended): the parser recognises a header exactly when the block
begins with three double quotes immediately followed by a newline, a
subsequent fully-contained triple quote exists, and the captured span
between the delimiters is non-empty; in every such case the returned code
is the block with the whole matched span (header plus the following
whitespace run) removed and trimmed, and in every other case it returns
the empty directive set and the block unchanged. -/
theorem c8_header_characterization :
    (∀ code : List Char,
        ¬(code.take 4 = strL "\"\"\"\n"
            ∧ ∃ m, tripleIdx (code.drop 4) = some m ∧ 0 < m) →
        parseAndConvertConfig code = (emptyConfig, code))
  ∧ (∀ (code : List Char) (m : Nat),
        code.take 4 = strL "\"\"\"\n" → tripleIdx (code.drop 4) = some m → 0 < m →
        (parseAndConvertConfig code).2
          = trim (code.drop (m + 4 + 3 + wsRunLen code (m + 4 + 3)))) := by
  constructor
  · intro code hn
    by_cases h4 : code.take 4 = strL "\"\"\"\n"
    · cases ht : tripleIdx (code.drop 4) with
      | none =>
        have hhm : headerMatch code = none := by
          rw [headerMatch, if_pos h4, findTripleIdx, ht]
          rfl
        rw [parseAndConvertConfig, hhm]
      | some m =>
        have hm0 : m = 0 := by
          by_contra hm
          exact hn ⟨h4, m, ht, by omega⟩
        subst hm0
        have hhm : headerMatch code = some ([], 4 + 3 + wsRunLen code (4 + 3)) := by
          rw [headerMatch, if_pos h4, findTripleIdx, ht]
          rfl
        rw [parseAndConvertConfig, hhm]
        rfl
    · have hhm : headerMatch code = none := by
        rw [headerMatch, if_neg h4]
      rw [parseAndConvertConfig, hhm]
  · intro code m h4 ht hm
    have hlen : m + 3 ≤ (code.drop 4).length := tripleIdx_some_le ht
    have hcap : (code.drop 4).take m ≠ [] := by
      intro hc
      rcases List.take_eq_nil_iff.mp hc with h | h
      · omega
      · rw [h] at hlen
        simp at hlen
    have hhm : headerMatch code
        = some ((code.drop 4).take m, m + 4 + 3 + wsRunLen code (m + 4 + 3)) := by
      rw [headerMatch, if_pos h4, findTripleIdx, ht]
      simp [Nat.add_sub_cancel]
    rw [parseAndConvertConfig, hhm]
    simp only [if_neg hcap]

/-- C8 witness: the positive half applied to a one-line header block. -/
theorem c8_witness :
    (parseAndConvertConfig (strL "\"\"\"\nA\n\"\"\"\nB")).2 = strL "B" :=
  (c8_header_characterization.2 (strL "\"\"\"\nA\n\"\"\"\nB") 2 (by decide) (by decide)
    (by decide)).trans (by decide)

/-- Dropping a leading whitespace run does not change the count of a
non-whitespace character. -/
theorem count_dropWhile_ws (c : Char) (h : isJsWs c = false) :
    ∀ l : List Char, (l.dropWhile isJsWs).count c = l.count c := by
  intro l
  induction l with
  | nil => rfl
  | cons a t ih =>
    rw [List.dropWhile_cons]
    by_cases ha : isJsWs a = true
    · have hac : (a == c) = false := by
        apply beq_eq_false_iff_ne.mpr
        intro he
        rw [he, h] at ha
        exact Bool.false_ne_true ha
      rw [if_pos ha, List.count_cons, hac, ih]
      simp
    · rw [if_neg ha]

/-- Post-pass 1 only removes whitespace characters. -/
theorem count_post1 (c : Char) (h : isJsWs c = false) (l : List Char) :
    (post1 l).count c = l.count c := by
  rw [post1, List.count_reverse, count_dropWhile_ws c h, List.count_reverse]

/-- Post-pass 2 only removes space and tab characters. -/
theorem count_post2 (c : Char) (h : isJsWs c = false) :
    ∀ l : List Char, (post2 l).count c = l.count c := by
  intro l
  induction l with
  | nil => rfl
  | cons a t ih =>
    rw [post2]
    by_cases hc : ((a == ' ' || a == '\t') && (post2 t).headD nulC == '\n') = true
    · have hc2 : (a = ' ' ∨ a = '\t') ∧ (post2 t).headD nulC = '\n' := by
        simpa using hc
      have ha : isJsWs a = true := by
        rcases hc2.1 with rfl | rfl <;> decide
      have hac : (a == c) = false := by
        apply beq_eq_false_iff_ne.mpr
        intro he
        rw [he, h] at ha
        exact Bool.false_ne_true ha
      rw [if_pos hc, ih, List.count_cons, hac]
      simp
    · rw [if_neg hc, List.count_cons, List.count_cons, ih]

/-- A prefix no longer than the matched run of takeWhile satisfies the
predicate everywhere. -/
theorem take_all_of_takeWhile (p : Char → Bool) :
    ∀ (l : List Char) (j : Nat), j ≤ (l.takeWhile p).length →
      (l.take j).all p = true := by
  intro l
  induction l with
  | nil => intro j hj; simp
  | cons a t ih =>
    intro j hj
    cases j with
    | zero => simp
    | succ j2 =>
      rw [List.takeWhile_cons] at hj
      by_cases hp : p a = true
      · rw [if_pos hp] at hj
        simp only [List.length_cons] at hj
        rw [List.take_succ_cons, List.all_cons, hp, ih j2 (by omega)]
        rfl
      · rw [if_neg hp] at hj
        simp at hj

/-- A list of whitespace characters does not contain a non-whitespace one. -/
theorem count_eq_zero_of_all_ws {c : Char} (h : isJsWs c = false) {l : List Char}
    (hall : l.all isJsWs = true) : l.count c = 0 := by
  rw [List.count_eq_zero]
  intro hm
  rw [List.all_eq_true] at hall
  have hc := hall c hm
  rw [h] at hc
  exact Bool.false_ne_true hc

/-- The last-newline index of a newline-containing list is in range. -/
theorem lastNlIdx_lt {l : List Char} (h : l.contains '\n' = true) :
    lastNlIdx l + 1 ≤ l.length := by
  have hmem : '\n' ∈ l := by simpa using h
  have hlen : 0 < l.length := List.length_pos.mpr (by rintro rfl; simp at hmem)
  rw [lastNlIdx]
  omega

/-- Post-pass 3 only removes whitespace characters. -/
theorem count_post3 (c : Char) (h : isJsWs c = false) :
    ∀ (fuel : Nat) (l : List Char), l.length < fuel →
      (post3 fuel l).count c = l.count c := by
  intro fuel
  induction fuel with
  | zero => intro l hl; omega
  | succ f ih =>
    intro l hl
    cases l with
    | nil => rfl
    | cons a t =>
      rw [post3]
      by_cases ha : a = '\n'
      · subst ha
        rw [if_pos rfl]
        by_cases hrun : (t.takeWhile isJsWs).contains '\n' = true
        · rw [if_pos hrun]
          have hk1 : lastNlIdx (t.takeWhile isJsWs) + 1 ≤ (t.takeWhile isJsWs).length :=
            lastNlIdx_lt hrun
          have hzero : (t.take (lastNlIdx (t.takeWhile isJsWs) + 1)).count c = 0 :=
            count_eq_zero_of_all_ws h (take_all_of_takeWhile isJsWs t _ hk1)
          have hdrop : (t.drop (lastNlIdx (t.takeWhile isJsWs) + 1)).count c = t.count c := by
            conv_rhs => rw [← List.take_append_drop (lastNlIdx (t.takeWhile isJsWs) + 1) t]
            rw [List.count_append, hzero, Nat.zero_add]
          have hfuel : (t.drop (lastNlIdx (t.takeWhile isJsWs) + 1)).length < f := by
            rw [List.length_drop]
            simp only [List.length_cons] at hl
            omega
          rw [List.count_cons, List.count_cons, ih _ hfuel, hdrop]
        · rw [if_neg hrun, List.count_cons, List.count_cons,
            ih t (by simp only [List.length_cons] at hl; omega)]
      · rw [if_neg ha, List.count_cons, List.count_cons,
          ih t (by simp only [List.length_cons] at hl; omega)]

/-- C6: inside a quoted string the scanner never opens a comment: at any
loop state with a quote flag set, a hash character, or a character
starting a triple-quote sequence, is emitted verbatim and the scan moves
on by one character.  The normalisation passes remove only whitespace, so
every non-whitespace character the scanner emits — hash and quote
characters in particular — survives byte-for-byte into the output.  The
documented instance: the input x colon space quoted a-hash-b is returned
unchanged. -/
theorem c6_quoted_preserved :
    (∀ (code : List Char) (i : Nat) (inS inD : Bool),
        inS = true ∨ inD = true →
        (code.getD i nulC = '#'
          ∨ (code.getD i nulC = '"' ∧ code.getD (i + 1) nulC = '"'
              ∧ code.getD (i + 2) nulC = '"')) →
        (scanStep code i inS inD).1 = [code.getD i nulC]
          ∧ (scanStep code i inS inD).2.1 = i + 1)
  ∧ (∀ (code : List Char) (c : Char), isJsWs c = false →
      (removeCommentsFromD2 code).count c
        = (scanD2 code (code.length + 1) 0 false false).count c)
  ∧ removeCommentsFromD2 (strL "x: \"a # b\"") = strL "x: \"a # b\"" := by
  refine ⟨?_, ?_, by decide⟩
  · intro code i inS inD hIn hc
    rcases hc with hc | ⟨hc0, hc1, hc2⟩
    · simp only [List.getD_eq_getElem?_getD] at hc
      rcases hIn with hq | hq <;> subst hq <;> simp +decide [scanStep, hc]
    · have hlt : i + 2 < code.length := getD_ne_imp_lt hc2 (by decide)
      have hlt1 : i + 1 < code.length := by omega
      have hc1e : code[i + 1] = '"' := by
        rw [List.getD_eq_getElem?_getD, List.getElem?_eq_getElem hlt1] at hc1
        simpa using hc1
      have hc2e : code[i + 2] = '"' := by
        rw [List.getD_eq_getElem?_getD, List.getElem?_eq_getElem hlt] at hc2
        simpa using hc2
      simp only [List.getD_eq_getElem?_getD] at hc0
      rcases hIn with hq | hq <;> subst hq <;>
        simp +decide [scanStep, hc0, hc1e, hc2e, hlt, hlt1]
  · intro code c h
    simp only [removeCommentsFromD2]
    rw [count_post3 c h _ _ (Nat.lt_succ_self _), count_post2 c h, count_post1 c h]

/-- C6 witness: the step theorem inside a single-quoted string at a hash,
and the count theorem at the hash character of the documented instance. -/
theorem c6_witness :
    (scanStep (strL "\x27#\x27") 1 true false).1 = [(strL "\x27#\x27").getD 1 nulC]
      ∧ (scanStep (strL "\x27#\x27") 1 true false).2.1 = 1 + 1
      ∧ (removeCommentsFromD2 (strL "x: \"a # b\"")).count '#'
          = (scanD2 (strL "x: \"a # b\"") ((strL "x: \"a # b\"").length + 1)
              0 false false).count '#' :=
  ⟨(c6_quoted_preserved.1 (strL "\x27#\x27") 1 true false (Or.inl rfl)
      (Or.inl (by decide))).1,
   (c6_quoted_preserved.1 (strL "\x27#\x27") 1 true false (Or.inl rfl)
      (Or.inl (by decide))).2,
   c6_quoted_preserved.2.1 (strL "x: \"a # b\"") '#' (by decide)⟩

end D2
